import Mathlib

/-!
# Verification of the GC streaming-analytics pipeline

Shallow embedding of the parts of the repository that the claims C1-C10
concern, together with theorems settling each claim.

Conventions of the embedding:
* Python `float` values are modelled as rationals (`ℚ`): every IEEE-754 double
  is a rational number, and the arithmetic the claims are about is exact at the
  claimed tolerances.  Quantities produced through `sqrt` (z-score,
  correlation) live in `ℝ`.
* Python `str()` encodings of scalars are modelled symbolically by the
  inductive `RVal`: `str(int)` / `repr(float)` are injective with exact
  inverses (`int(str(n)) = n`; since Python 3.1, `float(repr(x)) = x`), so an
  encoded field carries the encoded value together with the tag saying which
  Python encoder produced it.
* Fallible code (`KeyError`, parse failures) returns `Option`.
* Stateful loops become explicit state passing (`List.foldl` over a step
  function).
-/

set_option maxRecDepth 100000

namespace GC

/-- Symbolic model of a string value stored in a Redis field, tagged by the
Python encoder that produced it (`src/src/shared/models.py`):
`.str s` is a field stored verbatim, `.intStr n` is `str(n)` of an `int`,
`.ratStr q` is `str(x)` of a `float` (exactly invertible via `float(...)`;
every IEEE-754 double is a rational), `.floatStr r` is the same `str(float)`
encoder applied to a quantity this embedding models in `ℝ` (z-score,
correlation, ADF numbers, which involve square roots), and `.boolStr b` is the
`"1"`/`"0"` encoding of a `bool`. -/
inductive RVal where
  | str : String → RVal
  | intStr : ℤ → RVal
  | ratStr : ℚ → RVal
  | floatStr : ℝ → RVal
  | boolStr : Bool → RVal

/-- A Redis hash / stream-entry field mapping, as the Python code sees it:
an association of field names to encoded string values. -/
abbrev RDict := List (String × RVal)

/-- Python `int(s)` applied to an encoded value: succeeds exactly on the
decimal string produced by `str` of an `int`. -/
def pyInt : RVal → Option ℤ
  | .intStr n => some n
  | _ => none

/-- Python `float(s)` applied to an encoded value: `float(str(x))` recovers a
float exactly (shortest-repr guarantee), and `float` also accepts integer
decimal strings. -/
def pyFloat : RVal → Option ℚ
  | .ratStr q => some q
  | .intStr n => some (n : ℚ)
  | _ => none

/-- Python `s == "1"` applied to an encoded value.  The `"1"/"0"` encoding of
a `bool` compares equal to `"1"` exactly when the bool is true; `str(n)` of an
int equals `"1"` iff `n = 1`; `str(x)` of a float always contains `'.'` or an
exponent, hence never equals `"1"`. -/
def pyEqOne : RVal → Bool
  | .str s => s == "1"
  | .intStr n => n == 1
  | .ratStr _ => false
  | .floatStr _ => false
  | .boolStr b => b

/-- Model of `TickData` (`src/src/shared/models.py`): one normalized trade event. -/
structure TickData where
  symbol : String
  trade_id : ℤ
  price : ℚ
  qty : ℚ
  timestamp : ℤ
  is_buyer_maker : Bool
deriving DecidableEq

namespace TickData

/-- Embedding of `TickData.to_redis_dict`: every field is stringified; `is_buyer_maker`
becomes `"1"`/`"0"`. -/
def to_redis_dict (t : TickData) : RDict :=
  [ ("symbol", .str t.symbol),
    ("trade_id", .intStr t.trade_id),
    ("price", .ratStr t.price),
    ("qty", .ratStr t.qty),
    ("timestamp", .intStr t.timestamp),
    ("is_buyer_maker", .boolStr t.is_buyer_maker) ]

/-- Embedding of `TickData.from_redis_dict`: parses the stringified fields back; a missing
key (`KeyError`) or failing coercion (`ValueError`) is `none`. -/
def from_redis_dict (d : RDict) : Option TickData :=
  match d.lookup "symbol", d.lookup "trade_id", d.lookup "price",
        d.lookup "qty", d.lookup "timestamp", d.lookup "is_buyer_maker" with
  | some (.str sym), some tid, some p, some q, some ts, some bm =>
    match pyInt tid, pyFloat p, pyFloat q, pyInt ts with
    | some tid', some p', some q', some ts' =>
      some ⟨sym, tid', p', q', ts', pyEqOne bm⟩
    | _, _, _, _ => none
  | _, _, _, _, _, _ => none

end TickData

/-- Alert severity (`src/src/shared/models.py`). -/
inductive AlertSeverity where
  | info
  | warning
  | critical
deriving DecidableEq

/-- Alert types (`src/src/shared/models.py`). -/
inductive AlertType where
  | z_score_high
  | z_score_low
  | correlation_break
  | data_stale
  | stationarity_change
  | custom
deriving DecidableEq

/-- The wire value of `AlertSeverity` (`severity.value`). -/
def AlertSeverity.value : AlertSeverity → String
  | .info => "info"
  | .warning => "warning"
  | .critical => "critical"

/-- The wire value of `AlertType` (`alert_type.value`). -/
def AlertType.value : AlertType → String
  | .z_score_high => "z_score_high"
  | .z_score_low => "z_score_low"
  | .correlation_break => "correlation_break"
  | .data_stale => "data_stale"
  | .stationarity_change => "stationarity_change"
  | .custom => "custom"

/-- Model of `Alert` (`src/src/shared/models.py`).  `value` and `threshold` are
`Optional[float]`; the quant engine fills them with the (real-valued) z-score
and threshold, so they are modelled as `Option ℝ`.  `message` is an opaque
string (its float formatting is not modelled). -/
structure Alert where
  id : String
  alert_type : AlertType
  symbol : String
  message : String
  timestamp : ℤ
  severity : AlertSeverity
  value : Option ℝ
  threshold : Option ℝ
  acknowledged : Bool

/-- Python truthiness of an `Optional[float]`: `None` and `0.0` are falsy,
every other float is truthy.  This is the test in
`str(self.value) if self.value else ""`. -/
def pyTruthy : Option ℝ → Prop
  | none => False
  | some q => q ≠ 0

noncomputable instance : DecidablePred pyTruthy := fun _ =>
  Classical.propDecidable _

namespace Alert

/-- Embedding of `Alert.to_redis_dict`: note that the optional floats go through
`str(x) if x else ""`, i.e. Python truthiness, not an `is not None` test. -/
noncomputable def to_redis_dict (a : Alert) : RDict :=
  [ ("id", .str a.id),
    ("alert_type", .str a.alert_type.value),
    ("symbol", .str a.symbol),
    ("message", .str a.message),
    ("timestamp", .intStr a.timestamp),
    ("severity", .str a.severity.value),
    ("value", if pyTruthy a.value then .floatStr (a.value.getD 0) else .str ""),
    ("threshold", if pyTruthy a.threshold then .floatStr (a.threshold.getD 0) else .str ""),
    ("acknowledged", .boolStr a.acknowledged) ]

end Alert

/-! ## Quant engine (`src/src/services/quant_engine.py`) -/

/-- Model of `DataValidityStatus` (`src/src/shared/models.py`). -/
inductive DataValidityStatus where
  | insufficient
  | warming_up
  | valid
deriving DecidableEq

/-- The wire value of `DataValidityStatus` (`value` of the str-enum). -/
def DataValidityStatus.value : DataValidityStatus → String
  | .insufficient => "insufficient"
  | .warming_up => "warming_up"
  | .valid => "valid"

/-- Model of an append to a `collections.deque` of capacity `maxlen`: appends on the right and, when
the deque is already full, evicts the leftmost element. -/
def dequeAppend (maxlen : ℕ) (xs : List α) (x : α) : List α :=
  if xs.length = maxlen then xs.tail ++ [x] else xs ++ [x]

/-- The hard-coded capacity of the three deques in `SymbolData`
(`deque(maxlen=200)`, `quant_engine.py` lines 25-27).  Note that this is NOT
the engine's `window_size` parameter (default 100). -/
def DEQUE_MAXLEN : ℕ := 200

/-- Constant `QuantEngine.MIN_POINTS_FOR_ANALYTICS`. -/
def MIN_POINTS_FOR_ANALYTICS : ℕ := 20

/-- Constant `QuantEngine.MIN_POINTS_FOR_ADF`. -/
def MIN_POINTS_FOR_ADF : ℕ := 50

/-- Model of `SymbolData` (`quant_engine.py`): rolling-window state for one symbol.
Lists are oldest-first, matching deque index order. -/
structure SymbolData where
  prices : List ℚ
  quantities : List ℚ
  timestamps : List ℤ
  last_tick_time : ℤ
  vwap_sum_pq : ℚ
  vwap_sum_q : ℚ
deriving DecidableEq

/-- The `SymbolData()` default: empty deques, zero accumulators. -/
def SymbolData.empty : SymbolData := ⟨[], [], [], 0, 0, 0⟩

/-- Embedding of `QuantEngine._process_tick`, restricted to the `SymbolData` of the tick's
symbol (the surrounding code only routes the tick to `self.symbol_data[symbol]`
and logs exceptions).  Appends to the three deques (each `maxlen=200`), updates
`last_tick_time` and the VWAP accumulators, and then — if the deque length
exceeds `window_size` — subtracts the contribution of the CURRENT oldest deque
element `prices[0]`/`quantities[0]` (which stays in the deque, since the deque
only evicts at length 200). -/
def processTick (window_size : ℕ) (sd : SymbolData) (t : TickData) : SymbolData :=
  let prices := dequeAppend DEQUE_MAXLEN sd.prices t.price
  let quantities := dequeAppend DEQUE_MAXLEN sd.quantities t.qty
  let timestamps := dequeAppend DEQUE_MAXLEN sd.timestamps t.timestamp
  let pq := sd.vwap_sum_pq + t.price * t.qty
  let q := sd.vwap_sum_q + t.qty
  if window_size < prices.length then
    { prices := prices, quantities := quantities, timestamps := timestamps,
      last_tick_time := t.timestamp,
      vwap_sum_pq := pq - prices.headI * quantities.headI,
      vwap_sum_q := q - quantities.headI }
  else
    { prices := prices, quantities := quantities, timestamps := timestamps,
      last_tick_time := t.timestamp, vwap_sum_pq := pq, vwap_sum_q := q }

/-- A sequence of ticks processed in order for one symbol. -/
def processTicks (window_size : ℕ) (sd : SymbolData) (ts : List TickData) : SymbolData :=
  ts.foldl (processTick window_size) sd

/-- Model of `AnalyticsSnapshot` (`src/src/shared/models.py`).  Optional pair fields
whose values are produced through square roots (`z_score`, `correlation`, ADF
results) live in `ℝ`; the purely arithmetic fields stay in `ℚ`. -/
structure AnalyticsSnapshot where
  symbol : String
  pair_symbol : Option String
  timestamp : ℤ
  last_price : ℚ
  price_change_pct : Option ℚ
  vwap : Option ℚ
  spread : Option ℚ
  hedge_ratio : Option ℚ
  z_score : Option ℝ
  correlation : Option ℝ
  adf_statistic : Option ℝ
  adf_pvalue : Option ℝ
  is_stationary : Option Bool
  data_freshness_ms : ℤ
  validity_status : DataValidityStatus
  tick_count : ℕ

/-- Embedding of `QuantEngine._compute_single_symbol_analytics`.  Returns `none` when the
symbol has no data (`len(sd.prices) == 0`; the `sd is None` case is the same
guard).  `now` stands for `int(time.time() * 1000)`. -/
def compute_single_symbol_analytics (symbol : String) (sd : SymbolData)
    (window_size : ℕ) (now : ℤ) : Option AnalyticsSnapshot :=
  if sd.prices.length = 0 then none else
  let tick_count := sd.prices.length
  let validity : DataValidityStatus :=
    if tick_count < MIN_POINTS_FOR_ANALYTICS then .insufficient
    else if tick_count < window_size then .warming_up
    else .valid
  let last_price := sd.prices.getLast?.getD 0
  let price_change_pct : Option ℚ :=
    if 2 ≤ sd.prices.length then
      some (if sd.prices.headI ≠ 0
            then ((last_price - sd.prices.headI) / sd.prices.headI) * 100
            else 0)
    else none
  let vwap : Option ℚ :=
    if 0 < sd.vwap_sum_q then some (sd.vwap_sum_pq / sd.vwap_sum_q) else none
  let data_freshness : ℤ := if sd.last_tick_time ≠ 0 then now - sd.last_tick_time else 0
  some { symbol := symbol, pair_symbol := none, timestamp := now,
         last_price := last_price, price_change_pct := price_change_pct,
         vwap := vwap, spread := none, hedge_ratio := none, z_score := none,
         correlation := none, adf_statistic := none, adf_pvalue := none,
         is_stationary := none, data_freshness_ms := data_freshness,
         validity_status := validity, tick_count := tick_count }

/-- Embedding of `QuantEngine._calculate_ols_hedge_ratio`: OLS slope
`β = Σ((xᵢ−x̄)(yᵢ−ȳ)) / Σ((xᵢ−x̄)²)`, with 0 for fewer than two points or a
zero denominator.  Always called on two arrays of equal length. -/
def calculate_ols_hedge_ratio (y x : List ℚ) : ℚ :=
  if x.length < 2 then 0 else
  let x_mean := x.sum / x.length
  let y_mean := y.sum / y.length
  let numerator := ((x.zip y).map (fun p => (p.1 - x_mean) * (p.2 - y_mean))).sum
  let denominator := (x.map (fun xi => (xi - x_mean) ^ 2)).sum
  if denominator = 0 then 0 else numerator / denominator

/-- Embedding of `QuantEngine._calculate_spread`: elementwise `prices_a − β·prices_b`. -/
def calculate_spread (prices_a prices_b : List ℚ) (hedge_ratio : ℚ) : List ℚ :=
  (prices_a.zip prices_b).map (fun p => p.1 - hedge_ratio * p.2)

/-- Embedding of `QuantEngine._calculate_zscore`: z-score of the last value over the last
`w = min(window, len)` values, with population mean/std (`np.mean`/`np.std`).
Returns 0 when `w < 2`.  The code's guard is `std == 0`; for a nonnegative
variance `np.sqrt(var) == 0` iff `var == 0`, so the branch tests the (rational,
decidable) variance — `sqrt_variance_eq_zero_iff` below proves the
equivalence. -/
noncomputable def calculate_zscore (series : List ℚ) (window : ℕ) : ℝ :=
  let w := min window series.length
  if w < 2 then 0 else
  let recent := series.drop (series.length - w)
  let mean : ℚ := recent.sum / (w : ℚ)
  let variance : ℚ := (recent.map (fun x => (x - mean) ^ 2)).sum / (w : ℚ)
  if variance = 0 then 0
  else (((series.getLast?.getD 0 : ℚ) : ℝ) - (mean : ℝ)) / Real.sqrt (variance : ℝ)

/-- Embedding of `QuantEngine._calculate_correlation`: Pearson correlation over the last
`min(window, min_len)` aligned points; 0 for fewer than two points.
`np.corrcoef` yields `NaN` exactly when one of the two windows has zero
variance, and the code maps `NaN` to 0, so the degenerate branch tests the
(rational) variances. -/
noncomputable def calculate_correlation (x y : List ℚ) (window : ℕ) : ℝ :=
  let min_len := min x.length y.length
  if min_len < 2 then 0 else
  let w := min window min_len
  let xr := x.drop (x.length - w)
  let yr := y.drop (y.length - w)
  let xm : ℚ := xr.sum / (w : ℚ)
  let ym : ℚ := yr.sum / (w : ℚ)
  let cov : ℚ := ((xr.zip yr).map (fun p => (p.1 - xm) * (p.2 - ym))).sum
  let vx : ℚ := (xr.map (fun t => (t - xm) ^ 2)).sum
  let vy : ℚ := (yr.map (fun t => (t - ym) ^ 2)).sum
  if vx = 0 ∨ vy = 0 then 0
  else (cov : ℝ) / (Real.sqrt (vx : ℝ) * Real.sqrt (vy : ℝ))

/-- Embedding of `QuantEngine._compute_pair_analytics`.  Here `adf` stands for `self._adf_test`,
whose value depends on the external `statsmodels` routine (it returns `None` on
`ImportError` or any numerical failure), so it is a parameter of the model.
`now` stands for `int(time.time() * 1000)`.  The `sd_a`/`sd_b` `None` guard of
the source corresponds to calling this with the two symbols' states. -/
noncomputable def compute_pair_analytics (adf : List ℚ → Option (ℝ × ℝ × Bool))
    (symbol_a symbol_b : String) (sd_a sd_b : SymbolData)
    (window_size : ℕ) (now : ℤ) : Option AnalyticsSnapshot :=
  let min_len := min sd_a.prices.length sd_b.prices.length
  if min_len < MIN_POINTS_FOR_ANALYTICS then none else
  let prices_a := sd_a.prices.drop (sd_a.prices.length - min_len)
  let prices_b := sd_b.prices.drop (sd_b.prices.length - min_len)
  let validity : DataValidityStatus :=
    if min_len < MIN_POINTS_FOR_ANALYTICS then .insufficient
    else if min_len < window_size then .warming_up
    else .valid
  let hedge_ratio := calculate_ols_hedge_ratio prices_a prices_b
  let spread_series := calculate_spread prices_a prices_b hedge_ratio
  let current_spread := spread_series.getLast?.getD 0
  let z_score := calculate_zscore spread_series 20
  let correlation := calculate_correlation prices_a prices_b 60
  let adf_result := if MIN_POINTS_FOR_ADF ≤ min_len then adf spread_series else none
  some { symbol := symbol_a, pair_symbol := some symbol_b, timestamp := now,
         last_price := prices_a.getLast?.getD 0, price_change_pct := none,
         vwap := none, spread := some current_spread,
         hedge_ratio := some hedge_ratio, z_score := some z_score,
         correlation := some correlation,
         adf_statistic := adf_result.map (·.1),
         adf_pvalue := adf_result.map (·.2.1),
         is_stationary := adf_result.map (·.2.2),
         data_freshness_ms := now - min sd_a.last_tick_time sd_b.last_tick_time,
         validity_status := validity, tick_count := min_len }

/-- The `symbol` field the engine writes into an alert:
`f"{snapshot.symbol}:{snapshot.pair_symbol}" if snapshot.pair_symbol else snapshot.symbol`. -/
def alertSymbol (s : AnalyticsSnapshot) : String :=
  match s.pair_symbol with
  | some b => s.symbol ++ ":" ++ b
  | none => s.symbol

/-- Embedding of `QuantEngine._check_alerts`: the list of alerts built for one snapshot
(the commented-out staleness alert emits nothing).  The alert `id` is a fresh
UUID and `message` an f-string; both are opaque to the claims and modelled as
`""`.  Each built alert is then stored via `add_alert` and published. -/
noncomputable def check_alerts (alert_z_threshold : ℝ) (s : AnalyticsSnapshot) :
    List Alert :=
  match s.z_score with
  | none => []
  | some z =>
    if z > alert_z_threshold then
      [⟨"", .z_score_high, alertSymbol s, "", s.timestamp, .warning,
        some z, some alert_z_threshold, false⟩]
    else if z < -alert_z_threshold then
      [⟨"", .z_score_low, alertSymbol s, "", s.timestamp, .warning,
        some z, some (-alert_z_threshold), false⟩]
    else []

namespace AnalyticsSnapshot

/-- Embedding of `AnalyticsSnapshot.to_redis_dict`: iterates `model_dump()` in field
declaration order, skipping `None` fields; bools become `"1"`/`"0"`, enums
their `.value`, everything else `str(value)`. -/
def to_redis_dict (s : AnalyticsSnapshot) : RDict :=
  List.filterMap id
    [ some ("symbol", .str s.symbol),
      s.pair_symbol.map (fun v => ("pair_symbol", .str v)),
      some ("timestamp", .intStr s.timestamp),
      some ("last_price", .ratStr s.last_price),
      s.price_change_pct.map (fun v => ("price_change_pct", .ratStr v)),
      s.vwap.map (fun v => ("vwap", .ratStr v)),
      s.spread.map (fun v => ("spread", .ratStr v)),
      s.hedge_ratio.map (fun v => ("hedge_ratio", .ratStr v)),
      s.z_score.map (fun v => ("z_score", .floatStr v)),
      s.correlation.map (fun v => ("correlation", .floatStr v)),
      s.adf_statistic.map (fun v => ("adf_statistic", .floatStr v)),
      s.adf_pvalue.map (fun v => ("adf_pvalue", .floatStr v)),
      s.is_stationary.map (fun v => ("is_stationary", .boolStr v)),
      some ("data_freshness_ms", .intStr s.data_freshness_ms),
      some ("validity_status", .str s.validity_status.value),
      some ("tick_count", .intStr (s.tick_count : ℤ)) ]

end AnalyticsSnapshot

/-! ## Redis hash model (`src/src/shared/db/redis_client.py`, `hash_set`) -/

/-- Set one field in a hash: `HSET` replaces the value if the field exists,
otherwise appends the field.  A hash is an association list with (invariantly)
distinct keys. -/
def hsetField (h : RDict) (kv : String × RVal) : RDict :=
  if h.any (fun p => p.1 == kv.1) then
    h.map (fun p => if p.1 == kv.1 then kv else p)
  else h ++ [kv]

/-- Embedding of `RedisClient.hash_set key mapping` = `HSET key mapping`: sets every field
of `mapping` in the stored hash and leaves all other fields untouched.  It
does NOT delete fields absent from `mapping`. -/
def hash_set (h : RDict) (mapping : RDict) : RDict :=
  mapping.foldl hsetField h

/-- Embedding of `QuantEngine._publish_analytics`, as a transformation of the stored hash
at `state:analytics:<key>`: a single `hash_set` of the snapshot's
`to_redis_dict`. -/
def publish_analytics (stored : RDict) (s : AnalyticsSnapshot) : RDict :=
  hash_set stored s.to_redis_dict

/-! ## Cold store: on-demand OHLC
(`src/src/shared/db/timescale_client.py`, `compute_ohlc_from_ticks`) -/

/-- A row of the cold `ticks` table.  `time` is milliseconds since epoch
(nonnegative, so `ℕ`). -/
structure TickRow where
  time : ℕ
  symbol : String
  trade_id : ℤ
  price : ℚ
  qty : ℚ
  is_buyer_maker : Bool
deriving DecidableEq

/-- A row of the result set of `compute_ohlc_from_ticks`. -/
structure Bar where
  time : ℕ
  open_ : ℚ
  high : ℚ
  low : ℚ
  close : ℚ
  volume : ℚ
  trade_count : ℕ
deriving DecidableEq

/-- Embedding of `time_bucket(interval, time)`: truncate `time` down to a multiple of the
bucket width (buckets are aligned to the epoch origin). -/
def timeBucket (interval : ℕ) (t : ℕ) : ℕ := interval * (t / interval)

/-- Insert into a sorted list of bucket keys (ascending). -/
def insertSorted (x : ℕ) : List ℕ → List ℕ
  | [] => [x]
  | y :: ys => if x ≤ y then x :: y :: ys else y :: insertSorted x ys

/-- Ascending insertion sort for the (distinct) bucket keys, modelling the
query's `ORDER BY time ASC` over the grouped buckets. -/
def sortKeys (l : List ℕ) : List ℕ := l.foldr insertSorted []

/-- Rows selected by the `WHERE` clause of `compute_ohlc_from_ticks`
(`timescale_client.py`): symbol equality plus the inclusive time range.
`rows` is the physical content of the `ticks` table in row order. -/
def ohlcSelection (symbol : String) (start_time end_time : ℕ)
    (rows : List TickRow) : List TickRow :=
  rows.filter (fun r =>
    r.symbol == symbol && decide (start_time ≤ r.time) && decide (r.time ≤ end_time))

/-- The rows of one `GROUP BY time_bucket(...)` group: the selected rows whose
bucket is `t`. -/
def ohlcGroup (interval : ℕ) (symbol : String) (start_time end_time : ℕ)
    (rows : List TickRow) (t : ℕ) : List TickRow :=
  (ohlcSelection symbol start_time end_time rows).filter
    (fun r => timeBucket interval r.time == t)

/-- Embedding of `compute_ohlc_from_ticks` (`timescale_client.py`): the SQL
`GROUP BY time_bucket(...)` aggregation over the selected `ticks` rows,
ordered by bucket time ascending, with `LIMIT`.

Within a bucket the SQL computes `open` as
`(array_agg(price ORDER BY time ASC))[1]` and `close` as
`(array_agg(price ORDER BY time DESC))[1]`.  The `ORDER BY` sorts by `time`
only; PostgreSQL leaves the relative order of rows with equal `time`
unspecified, so the model resolves ties by the physical row order (a stable
sort — one of the orders the database may produce).  The first element of the
ascending aggregation is then the first row attaining the minimal `time`
(`List.argmin`), and of the descending one the first row attaining the
maximal `time` (`List.argmax`). -/
def compute_ohlc_from_ticks (interval : ℕ) (symbol : String)
    (start_time end_time : ℕ) (lim : ℕ) (rows : List TickRow) : List Bar :=
  let sel := ohlcSelection symbol start_time end_time rows
  let keys := sortKeys ((sel.map (fun r => timeBucket interval r.time)).dedup)
  (keys.take lim).map (fun b =>
    let grp := ohlcGroup interval symbol start_time end_time rows b
    { time := b,
      open_ := ((grp.argmin TickRow.time).map TickRow.price).getD 0,
      high := ((grp.map TickRow.price).maximum).unbot' 0,
      low := ((grp.map TickRow.price).minimum).untop' 0,
      close := ((grp.argmax TickRow.time).map TickRow.price).getD 0,
      volume := (grp.map TickRow.qty).sum,
      trade_count := grp.length })

/-! ## Archivist (`src/src/services/archivist.py`) -/

/-- One entry of a `stream:ticks:<SYMBOL>` Redis stream as the archivist sees
it: an entry id (strictly increasing along the stream) and the tick fields.
`parses` abstracts the `int(...)`/`float(...)` coercions of `_archive_ticks`:
`true` when they succeed and produce `row`, `false` when they raise
`ValueError`/`KeyError` (the entry is then logged and skipped). -/
structure StreamEntry where
  id : ℕ
  parses : Bool
  row : TickRow
deriving DecidableEq

/-- The archivist's per-symbol progress state for one symbol:
`cursor` is `self.last_archived_ts["tick:<symbol>"]` (the `"$"` bootstrap
resolves to the id of the newest entry present at startup, or `0` for an empty
stream), and `archived` is the sequence of rows inserted into the cold `ticks`
table by `insert_ticks_batch`, in insertion order. -/
structure ArchState where
  cursor : ℕ
  archived : List StreamEntry
deriving DecidableEq

/-- One archive cycle for one symbol (`_archive_ticks`, driven by
`_archive_all_symbols`).  `es` is the eventual content of the stream;
`cyc.1` is how many of its entries exist at the time of this cycle's
`stream_read`; `cyc.2` is `false` when the cycle raises (broker read failure,
or `insert_ticks_batch` failure — the `COPY` is a single atomic statement, so
a failed insert commits no rows) and the exception handler of
`_archive_all_symbols` leaves everything unchanged.

On a successful cycle: `stream_read` returns up to `batch` entries with id
greater than the cursor; the parseable ones are bulk-inserted; the cursor
is advanced to `last_entry_id`, the id of the last successfully parsed entry —
and only when at least one tick was parsed (`if ticks:`), only after the
insert succeeded. -/
def archStep (es : List StreamEntry) (batch : ℕ) (st : ArchState)
    (cyc : ℕ × Bool) : ArchState :=
  let read := ((es.take cyc.1).filter (fun e => decide (st.cursor < e.id))).take batch
  if cyc.2 = false then st
  else
    let parsed := read.filter (fun e => e.parses)
    match parsed.getLast? with
    | none => st
    | some last => { cursor := last.id, archived := st.archived ++ parsed }

/-- A whole uninterrupted run of the archivist over one symbol's stream:
fold of `archStep` from the bootstrap cursor `c0` with nothing archived. -/
def archRun (es : List StreamEntry) (batch : ℕ) (c0 : ℕ)
    (cycles : List (ℕ × Bool)) : ArchState :=
  cycles.foldl (archStep es batch) ⟨c0, []⟩

/-! ## Spec-side recomputations

These definitions follow the SPEC's wording, independently of the code above;
the claim theorems compare them with the embedded code. -/

/-- Direct VWAP recomputation from the spec: `Σ(p·q) / Σq` over given window
contents (invariant 3 of §8: "`vwap`, when present, equals `Σ(p·q) / Σq` over
the ticks currently in the window"). -/
def vwapRecomputed (prices quantities : List ℚ) : ℚ :=
  ((prices.zip quantities).map (fun p => p.1 * p.2)).sum / quantities.sum

/-- Relative error `|a − b| / |b|` used by the spec's "within 1e-6 relative
error of a recomputation". -/
def relErr (a b : ℚ) : ℚ := |a - b| / |b|

/-- Spec-side "the last `w` values of a series" (§4.D step 5), written via
`reverse`/`take` rather than the code's index arithmetic. -/
def lastWindow (w : ℕ) (s : List ℚ) : List ℚ := (s.reverse.take w).reverse

/-- Arithmetic mean of a list of rationals (`np.mean`). -/
def meanQ (l : List ℚ) : ℚ := l.sum / (l.length : ℚ)

/-- Population variance of a list of rationals (`np.std` squared,
`ddof = 0`). -/
def popVar (l : List ℚ) : ℚ :=
  (l.map (fun x => (x - meanQ l) ^ 2)).sum / (l.length : ℚ)

/-- Population standard deviation (`np.std`). -/
noncomputable def popStd (l : List ℚ) : ℝ := Real.sqrt (popVar l)

/-! ## Concrete instances used by witnesses and counterexamples -/

/-- A degenerate-looking snapshot value used as the `Option.getD` fallback
when naming concretely computed snapshots, and as the base record for
hand-built snapshots. -/
def junkSnap : AnalyticsSnapshot :=
  ⟨"", none, 0, 0, none, none, none, none, none, none, none, none, none, 0,
   .insufficient, 0⟩

/-- A symbol state holding `n` ticks of price 1 / qty 1 (consistent
accumulators). -/
def sdConst (n : ℕ) : SymbolData :=
  ⟨List.replicate n 1, List.replicate n 1, List.replicate n 0, 1, n, n⟩

/-- A stream of `n` unit ticks. -/
def ticksN (n : ℕ) : List TickData :=
  (List.range n).map (fun i => ⟨"BTCUSDT", i, 1, 1, i, false⟩)

/-- The C1 failing input: one tick at price 1, then 101 ticks at price 2, all
of quantity 1, against the default `window_size = 100`. -/
def c1Ticks : List TickData :=
  ⟨"BTCUSDT", 0, 1, 1, 0, false⟩ ::
    (List.range 101).map (fun i => ⟨"BTCUSDT", (i : ℤ) + 1, 2, 1, (i : ℤ) + 1, false⟩)

/-- The engine state after processing the C1 failing input. -/
def c1State : SymbolData := processTicks 100 SymbolData.empty c1Ticks

/-- The single-symbol snapshot computed from a 20-tick state (used to witness
the validity-status rule). -/
def singleSnapEx : AnalyticsSnapshot :=
  (compute_single_symbol_analytics "BTCUSDT" (sdConst 20) 100 0).getD junkSnap

/-- A pair snapshot computed from two 20-tick states with the ADF routine
unavailable (used to witness the validity-status rule on the pair path). -/
noncomputable def pairSnapEx : AnalyticsSnapshot :=
  (compute_pair_analytics (fun _ => none) "BTCUSDT" "ETHUSDT"
    (sdConst 20) (sdConst 20) 100 0).getD junkSnap

/-- A snapshot carrying a concrete z-score of 3 (used to witness the alert
rule). -/
def zSnapEx : AnalyticsSnapshot := { junkSnap with z_score := some 3 }

/-- An alert with a zero `value` and `threshold` (the C10 boundary case). -/
def alertZero : Alert :=
  ⟨"id0", .z_score_high, "BTCUSDT", "m", 5, .warning, some 0, some 0, false⟩

/-- An alert with nonzero `value` and `threshold`. -/
def alertThree : Alert :=
  ⟨"id1", .z_score_high, "BTCUSDT", "m", 5, .warning, some 3, some 2, false⟩

/-- A pair snapshot whose ADF fields are populated (an earlier publication). -/
def adfSnap1 : AnalyticsSnapshot :=
  { junkSnap with adf_statistic := some 1, adf_pvalue := some 1,
                  is_stationary := some true }

/-- The same snapshot with the ADF fields null (a later publication, e.g.
after the ADF routine failed). -/
def adfSnap2 : AnalyticsSnapshot := junkSnap

/-- The stored hash after publishing `adfSnap1` and then `adfSnap2` for the
same key. -/
def staleHash : RDict := publish_analytics (publish_analytics [] adfSnap1) adfSnap2

/-- The C4 failing input: two ticks in the same bucket with the SAME
timestamp; the physically-first row has the LARGER `trade_id`. -/
def c4Rows : List TickRow :=
  [⟨0, "BTCUSDT", 2, 10, 1, false⟩, ⟨0, "BTCUSDT", 1, 20, 1, false⟩]

/-- The bar `compute_ohlc_from_ticks` produces on `c4Rows`. -/
def c4Bar : Bar := ⟨0, 10, 20, 10, 10, 2, 2⟩

/-- A two-entry stream used to witness the archivist theorem. -/
def archStreamEx : List StreamEntry :=
  [⟨1, true, ⟨5, "BTCUSDT", 100, 1, 1, false⟩⟩,
   ⟨2, true, ⟨6, "BTCUSDT", 101, 2, 1, false⟩⟩]

/-- Proof-support invariant of the archivist state over a run: the archived
entries are id-sorted; each comes from the stream, parsed, strictly after the
bootstrap cursor and at or before the current cursor; the cursor never moves
backwards past the bootstrap; and every parseable stream entry in
`(c0, cursor]` has been archived. -/
def ArchInv (es : List StreamEntry) (c0 : ℕ) (st : ArchState) : Prop :=
  st.archived.Pairwise (fun a b => a.id < b.id) ∧
  (∀ e ∈ st.archived, e ∈ es ∧ e.parses = true ∧ c0 < e.id ∧ e.id ≤ st.cursor) ∧
  c0 ≤ st.cursor ∧
  (∀ e ∈ es, e.parses = true → c0 < e.id → e.id ≤ st.cursor → e ∈ st.archived)

/-! # Theorems -/

/-- C9: serializing a `TickData` with `to_redis_dict` and deserializing with
`from_redis_dict` reproduces the tick exactly — in particular `symbol`,
`trade_id`, `timestamp` and `is_buyer_maker` byte-exactly, and `price`/`qty`
exactly (which is stronger than the claimed 15 significant digits; Python's
`str`/`float` round-trip on doubles is exact). -/
theorem C9_tick_serialization_roundtrip (t : TickData) :
    TickData.from_redis_dict (TickData.to_redis_dict t) = some t := rfl

/-- C10: `Alert.to_redis_dict` stores `""` for a `value` (resp. `threshold`)
of exactly `0.0`, producing the very same dictionary as when the field is
`None`, and stores the decimal string of the value whenever it is nonzero. -/
theorem C10_alert_zero_value_serialization (a : Alert) :
    (a.value = some 0 →
      Alert.to_redis_dict a = Alert.to_redis_dict { a with value := none }) ∧
    (a.threshold = some 0 →
      Alert.to_redis_dict a = Alert.to_redis_dict { a with threshold := none }) ∧
    (∀ q : ℝ, a.value = some q → q ≠ 0 →
      (Alert.to_redis_dict a).lookup "value" = some (.floatStr q)) := by
  obtain ⟨i, ty, sym, msg, ts, sev, v, th, ack⟩ := a
  refine ⟨?_, ?_, ?_⟩
  · intro h
    cases h
    simp [Alert.to_redis_dict, pyTruthy]
  · intro h
    cases h
    simp [Alert.to_redis_dict, pyTruthy]
  · intro q hq hne
    cases hq
    rw [Alert.to_redis_dict]
    rw [if_pos (show pyTruthy (some q) from hne)]
    rfl

/-- Closed witness for `C10_alert_zero_value_serialization` at the concrete
alerts `alertZero` and `alertThree`. -/
theorem C10_witness :
    Alert.to_redis_dict alertZero
        = Alert.to_redis_dict { alertZero with value := none } ∧
    (Alert.to_redis_dict alertThree).lookup "value" = some (.floatStr 3) :=
  ⟨(C10_alert_zero_value_serialization alertZero).1 rfl,
   (C10_alert_zero_value_serialization alertThree).2.2 3 rfl (by norm_num)⟩

/-- C2 is violated by the code (code bug): the deques holding the rolling
window are hard-coded to `maxlen=200` while `window_size` defaults to 100, so
after 150 ticks the published snapshot has `tick_count = 150 > 100`. -/
theorem C2_tick_count_can_exceed_window :
    (compute_single_symbol_analytics "BTCUSDT"
        (processTicks 100 SymbolData.empty (ticksN 150)) 100 0).map
        AnalyticsSnapshot.tick_count = some 150 ∧ ¬(150 ≤ 100) := by
  exact ⟨by decide, by decide⟩

/-- C1 is violated by the code (code bug): once the deque length exceeds
`window_size`, every further tick subtracts the contribution of `prices[0]` —
which is never evicted from the deque (its `maxlen` is 200, not
`window_size`) — so the same oldest tick is subtracted repeatedly.  On
`c1Ticks` (one tick of price 1, then 101 ticks of price 2, all of qty 1) the
published VWAP is 2.01, while recomputing `Σ(p·q)/Σq` gives 2 over the last
100 ticks and 203/102 over everything the deque holds; both relative errors
far exceed 1e-6. -/
theorem C1_vwap_diverges_from_window :
    ((compute_single_symbol_analytics "BTCUSDT" c1State 100 0).bind
        AnalyticsSnapshot.vwap = some (201 / 100)) ∧
    vwapRecomputed (c1State.prices.drop (c1State.prices.length - 100))
        (c1State.quantities.drop (c1State.quantities.length - 100)) = 2 ∧
    vwapRecomputed c1State.prices c1State.quantities = 203 / 102 ∧
    relErr (201 / 100) 2 > 1 / 1000000 ∧
    relErr (201 / 100) (203 / 102) > 1 / 1000000 := by
  refine ⟨?_, ?_, ?_, ?_, ?_⟩ <;> with_unfolding_all decide

/-- C3: for every snapshot either compute path returns, `validity_status` is
`insufficient` iff `tick_count < 20`, `warming_up` iff
`20 ≤ tick_count < window_size`, and `valid` otherwise; at the default window
of 100, tick counts 20 and 99 give `warming_up` and 100 gives `valid`. -/
theorem C3_validity_status_rule :
    (∀ (sym : String) (sd : SymbolData) (w : ℕ) (now : ℤ) (s : AnalyticsSnapshot),
        compute_single_symbol_analytics sym sd w now = some s →
          ((s.validity_status = .insufficient ↔ s.tick_count < 20) ∧
           (s.validity_status = .warming_up ↔ 20 ≤ s.tick_count ∧ s.tick_count < w) ∧
           (s.validity_status = .valid ↔ 20 ≤ s.tick_count ∧ w ≤ s.tick_count))) ∧
    (∀ (adf : List ℚ → Option (ℝ × ℝ × Bool)) (sa sb : String)
        (sda sdb : SymbolData) (w : ℕ) (now : ℤ) (s : AnalyticsSnapshot),
        compute_pair_analytics adf sa sb sda sdb w now = some s →
          ((s.validity_status = .insufficient ↔ s.tick_count < 20) ∧
           (s.validity_status = .warming_up ↔ 20 ≤ s.tick_count ∧ s.tick_count < w) ∧
           (s.validity_status = .valid ↔ 20 ≤ s.tick_count ∧ w ≤ s.tick_count))) ∧
    ((compute_single_symbol_analytics "BTCUSDT" (sdConst 20) 100 0).map
        AnalyticsSnapshot.validity_status = some .warming_up) ∧
    ((compute_single_symbol_analytics "BTCUSDT" (sdConst 99) 100 0).map
        AnalyticsSnapshot.validity_status = some .warming_up) ∧
    ((compute_single_symbol_analytics "BTCUSDT" (sdConst 100) 100 0).map
        AnalyticsSnapshot.validity_status = some .valid) := by
  refine ⟨?_, ?_, by decide, by decide, by decide⟩
  · intro sym sd w now s h
    simp only [compute_single_symbol_analytics, MIN_POINTS_FOR_ANALYTICS] at h
    split at h
    · exact absurd h (by simp)
    · rw [Option.some_inj] at h
      subst h
      dsimp only
      split_ifs <;> refine ⟨?_, ?_, ?_⟩ <;> simp <;> omega
  · intro adf sa sb sda sdb w now s h
    simp only [compute_pair_analytics, MIN_POINTS_FOR_ANALYTICS] at h
    split at h
    · exact absurd h (by simp)
    · rw [Option.some_inj] at h
      subst h
      dsimp only
      split_ifs <;> refine ⟨?_, ?_, ?_⟩ <;> simp <;> omega

/-- Closed witness for `C3_validity_status_rule` at concrete 20-tick states on
both the single-symbol and the pair path. -/
theorem C3_witness :
    ((singleSnapEx.validity_status = .insufficient ↔ singleSnapEx.tick_count < 20) ∧
     (singleSnapEx.validity_status = .warming_up ↔
        20 ≤ singleSnapEx.tick_count ∧ singleSnapEx.tick_count < 100) ∧
     (singleSnapEx.validity_status = .valid ↔
        20 ≤ singleSnapEx.tick_count ∧ 100 ≤ singleSnapEx.tick_count)) ∧
    ((pairSnapEx.validity_status = .insufficient ↔ pairSnapEx.tick_count < 20) ∧
     (pairSnapEx.validity_status = .warming_up ↔
        20 ≤ pairSnapEx.tick_count ∧ pairSnapEx.tick_count < 100) ∧
     (pairSnapEx.validity_status = .valid ↔
        20 ≤ pairSnapEx.tick_count ∧ 100 ≤ pairSnapEx.tick_count)) :=
  ⟨C3_validity_status_rule.1 "BTCUSDT" (sdConst 20) 100 0 singleSnapEx rfl,
   C3_validity_status_rule.2.1 (fun _ => none) "BTCUSDT" "ETHUSDT"
     (sdConst 20) (sdConst 20) 100 0 pairSnapEx rfl⟩

/-- C6: for a positive threshold (the engine default is 2.0), `_check_alerts`
emits an alert iff the snapshot's z-score is present and lies outside
`[-threshold, threshold]`; at most one z-score alert per snapshot; `z > thr`
gives `z_score_high` with severity `warning` carrying the z value, `z < -thr`
gives `z_score_low`; a missing or in-range z-score emits nothing. -/
theorem C6_zscore_alert_rule (thr : ℝ) (s : AnalyticsSnapshot) (hthr : 0 < thr) :
    ((check_alerts thr s ≠ []) ↔ ∃ z, s.z_score = some z ∧ (z > thr ∨ z < -thr)) ∧
    (check_alerts thr s).length ≤ 1 ∧
    (s.z_score = none → check_alerts thr s = []) ∧
    (∀ z, s.z_score = some z → z > thr →
        (check_alerts thr s).map Alert.alert_type = [.z_score_high] ∧
        (check_alerts thr s).map Alert.severity = [.warning] ∧
        (check_alerts thr s).map Alert.value = [some z]) ∧
    (∀ z, s.z_score = some z → z < -thr →
        (check_alerts thr s).map Alert.alert_type = [.z_score_low] ∧
        (check_alerts thr s).map Alert.severity = [.warning]) ∧
    (∀ z, s.z_score = some z → -thr ≤ z → z ≤ thr → check_alerts thr s = []) := by
  cases hz : s.z_score with
  | none => refine ⟨?_, ?_, ?_, ?_, ?_, ?_⟩ <;> simp [check_alerts, hz]
  | some z =>
    simp only [check_alerts, hz]
    by_cases h1 : z > thr
    · rw [if_pos h1]
      refine ⟨?_, ?_, ?_, ?_, ?_, ?_⟩
      · simp
        exact Or.inl h1
      · simp
      · simp
      · intro z' hz' _
        cases hz'
        exact ⟨rfl, rfl, rfl⟩
      · intro z' hz' hlt
        cases hz'
        exact absurd hlt (by linarith)
      · intro z' hz' _ hle
        cases hz'
        exact absurd hle (by linarith)
    · rw [if_neg h1]
      by_cases h2 : z < -thr
      · rw [if_pos h2]
        refine ⟨?_, ?_, ?_, ?_, ?_, ?_⟩
        · simp
          exact Or.inr h2
        · simp
        · simp
        · intro z' hz' hgt
          cases hz'
          exact absurd hgt h1
        · intro z' hz' _
          cases hz'
          exact ⟨rfl, rfl⟩
        · intro z' hz' hge _
          cases hz'
          exact absurd hge (by linarith)
      · rw [if_neg h2]
        refine ⟨?_, ?_, ?_, ?_, ?_, ?_⟩
        · simp only [ne_eq, not_true_eq_false, false_iff, not_exists, not_and]
          intro z' hz'
          cases hz'
          push_neg
          exact ⟨le_of_not_lt h1, le_of_not_lt (by simpa using h2)⟩
        · simp
        · simp
        · intro z' hz' hgt
          cases hz'
          exact absurd hgt h1
        · intro z' hz' hlt
          cases hz'
          exact absurd hlt h2
        · intro _ _ _ _
          rfl

/-- Closed witness for `C6_zscore_alert_rule`: threshold 2 and a snapshot with
z-score 3 produce exactly one `z_score_high` alert. -/
theorem C6_witness :
    (check_alerts 2 zSnapEx).map Alert.alert_type = [.z_score_high] ∧
    (check_alerts 2 zSnapEx).length ≤ 1 :=
  ⟨((C6_zscore_alert_rule 2 zSnapEx (by norm_num)).2.2.2.1 3 rfl (by norm_num)).1,
   (C6_zscore_alert_rule 2 zSnapEx (by norm_num)).2.1⟩

/-- The spec-side window `lastWindow` agrees with the code's index
arithmetic `series[-w:]`. -/
theorem lastWindow_eq_drop (w : ℕ) (s : List ℚ) :
    lastWindow w s = s.drop (s.length - w) := by
  unfold lastWindow
  rw [List.take_reverse, List.reverse_reverse]

/-- Population variance is nonnegative. -/
theorem popVar_nonneg (l : List ℚ) : 0 ≤ popVar l := by
  unfold popVar
  apply div_nonneg
  · apply List.sum_nonneg
    intro x hx
    simp only [List.mem_map] at hx
    obtain ⟨y, _, rfl⟩ := hx
    positivity
  · positivity

/-- `np.std(recent) == 0` is equivalent to the (rational) population variance
being 0: the code's guard and the model's decidable guard agree. -/
theorem sqrt_variance_eq_zero_iff (l : List ℚ) : popStd l = 0 ↔ popVar l = 0 := by
  unfold popStd
  constructor
  · intro h
    have h1 : ((popVar l : ℚ) : ℝ) ≤ 0 := Real.sqrt_eq_zero'.mp h
    have h2 : (0 : ℝ) ≤ ((popVar l : ℚ) : ℝ) := by exact_mod_cast popVar_nonneg l
    exact_mod_cast le_antisymm h1 h2
  · intro h
    rw [h]
    simp

/-- The embedded z-score in terms of the spec-side mean/variance/std over the
spec-side window. -/
theorem calculate_zscore_eq (s : List ℚ) :
    calculate_zscore s 20 =
      if min 20 s.length < 2 then 0
      else if popVar (lastWindow (min 20 s.length) s) = 0 then 0
      else (((s.getLast?.getD 0 : ℚ) : ℝ)
              - ((meanQ (lastWindow (min 20 s.length) s) : ℚ) : ℝ))
            / popStd (lastWindow (min 20 s.length) s) := by
  by_cases h : min 20 s.length < 2
  · simp only [calculate_zscore, if_pos h]
  · have hlen : (s.drop (s.length - min 20 s.length)).length = min 20 s.length := by
      rw [List.length_drop]
      omega
    simp only [calculate_zscore, if_neg h, popStd, popVar, meanQ,
      lastWindow_eq_drop, hlen]

/-- C8: `_calculate_zscore` on a spread series of length `L` computes
`(s_{L-1} - mean) / std` over the last `w = min(20, L)` values, and returns
the defined value 0 whenever the standard deviation over that window is 0 or
`w < 2` (it is a total function — no branch raises). -/
theorem C8_zscore_rule (s : List ℚ) :
    (min 20 s.length < 2 → calculate_zscore s 20 = 0) ∧
    (popStd (lastWindow (min 20 s.length) s) = 0 → calculate_zscore s 20 = 0) ∧
    (2 ≤ min 20 s.length → popStd (lastWindow (min 20 s.length) s) ≠ 0 →
      calculate_zscore s 20 =
        (((s.getLast?.getD 0 : ℚ) : ℝ)
            - ((meanQ (lastWindow (min 20 s.length) s) : ℚ) : ℝ))
          / popStd (lastWindow (min 20 s.length) s)) := by
  refine ⟨?_, ?_, ?_⟩
  · intro h
    rw [calculate_zscore_eq, if_pos h]
  · intro h
    rw [calculate_zscore_eq]
    rcases lt_or_ge (min 20 s.length) 2 with h2 | h2
    · rw [if_pos h2]
    · rw [if_neg (by omega), if_pos ((sqrt_variance_eq_zero_iff _).mp h)]
  · intro h2 hstd
    rw [calculate_zscore_eq, if_neg (by omega),
      if_neg (fun hv => hstd ((sqrt_variance_eq_zero_iff _).mpr hv))]

/-- Closed witness for `C8_zscore_rule`: the empty series (w = 0 < 2) and a
constant two-point series (zero variance) both give z-score 0. -/
theorem C8_witness : calculate_zscore [] 20 = 0 ∧ calculate_zscore [0, 0] 20 = 0 :=
  ⟨(C8_zscore_rule []).1 (by decide),
   (C8_zscore_rule [0, 0]).2.1
     ((sqrt_variance_eq_zero_iff _).mpr
       (by norm_num [popVar, meanQ, lastWindow]))⟩

/-- Unfolding of `List.lookup` on a cons cell into an `if` on key equality. -/
theorem lookup_cons_eq (pk : String) (pv : RVal) (es : RDict) (a : String) :
    ((pk, pv) :: es).lookup a = if a = pk then some pv else es.lookup a := by
  rw [List.lookup_cons]
  by_cases h : a = pk
  · simp [h]
  · rw [if_neg h, show (a == pk) = false from by simpa using h]

/-- Updating one field in place leaves lookups of other keys unchanged. -/
theorem lookup_map_update_ne (h : RDict) (k : String) (v : RVal) (k' : String)
    (hne : k' ≠ k) :
    (h.map (fun p => if p.1 == k then (k, v) else p)).lookup k' = h.lookup k' := by
  induction h with
  | nil => rfl
  | cons p t ih =>
    obtain ⟨pk, pv⟩ := p
    simp only [List.map_cons]
    by_cases hp : pk = k
    · subst hp
      rw [if_pos (by simp), lookup_cons_eq, lookup_cons_eq, if_neg hne, if_neg hne]
      exact ih
    · rw [if_neg (by simpa using hp), lookup_cons_eq, lookup_cons_eq]
      by_cases hk' : k' = pk
      · rw [if_pos hk', if_pos hk']
      · rw [if_neg hk', if_neg hk']
        exact ih

/-- Updating a present field in place makes its lookup return the new value. -/
theorem lookup_map_update_self (h : RDict) (k : String) (v : RVal)
    (hmem : h.any (fun p => p.1 == k) = true) :
    (h.map (fun p => if p.1 == k then (k, v) else p)).lookup k = some v := by
  induction h with
  | nil => simp at hmem
  | cons p t ih =>
    obtain ⟨pk, pv⟩ := p
    simp only [List.map_cons]
    by_cases hp : pk = k
    · subst hp
      rw [if_pos (by simp), lookup_cons_eq, if_pos rfl]
    · rw [if_neg (by simpa using hp), lookup_cons_eq,
        if_neg (fun e => hp e.symm)]
      refine ih ?_
      simpa [List.any_cons, show (pk == k) = false from by simpa using hp]
        using hmem

/-- `HSET` of one field: lookup of that field returns the written value. -/
theorem lookup_hsetField_self (h : RDict) (k : String) (v : RVal) :
    (hsetField h (k, v)).lookup k = some v := by
  unfold hsetField
  split_ifs with hmem
  · exact lookup_map_update_self h k v hmem
  · rw [List.lookup_append]
    have hnone : h.lookup k = none := by
      rw [List.lookup_eq_none_iff]
      intro p hp
      simp only [List.any_eq_true, not_exists, not_and] at hmem
      have h1 : ¬(p.1 == k) = true := hmem p hp
      simpa [bne_iff_ne] using fun e => h1 (by simp [e])
    rw [hnone]
    simp [lookup_cons_eq]

/-- `HSET` of one field: lookups of other fields are unchanged. -/
theorem lookup_hsetField_ne (h : RDict) (k : String) (v : RVal) (k' : String)
    (hne : k' ≠ k) : (hsetField h (k, v)).lookup k' = h.lookup k' := by
  unfold hsetField
  split_ifs with hmem
  · exact lookup_map_update_ne h k v k' hne
  · rw [List.lookup_append]
    cases hl : h.lookup k'
    · simp [lookup_cons_eq, hne]
    · simp

/-- `hash_set` over a duplicate-key-free mapping is a right-biased merge:
a written field returns its new value, everything else falls back to the
previously stored hash. -/
theorem lookup_hash_set (m : RDict) : ∀ (h : RDict) (k : String),
    (m.map Prod.fst).Nodup →
    (hash_set h m).lookup k = (m.lookup k).or (h.lookup k) := by
  induction m with
  | nil =>
    intro h k _
    simp [hash_set]
  | cons kv t ih =>
    intro h k hnd
    obtain ⟨mk, mv⟩ := kv
    simp only [List.map_cons, List.nodup_cons] at hnd
    obtain ⟨hnotin, hnd'⟩ := hnd
    show (hash_set (hsetField h (mk, mv)) t).lookup k = _
    rw [ih _ k hnd']
    by_cases hk : k = mk
    · subst hk
      have ht : t.lookup k = none := by
        rw [List.lookup_eq_none_iff]
        intro p hp
        have : p.1 ≠ k := fun e => hnotin (e ▸ List.mem_map_of_mem Prod.fst hp)
        simpa using fun e => this e.symm
      rw [ht, lookup_hsetField_self]
      simp [lookup_cons_eq]
    · rw [lookup_hsetField_ne _ _ _ _ hk]
      rw [lookup_cons_eq, if_neg hk]

/-- Keys contributed by an optional field are the fixed name of that field. -/
theorem key_of_map_field {α : Type} (o : Option α) (name : String) (g : α → RVal) :
    ∀ kv, o.map (fun v => (name, g v)) = some kv → kv.1 = name := by
  intro kv h
  rcases Option.map_eq_some'.mp h with ⟨a, _, rfl⟩
  rfl

/-- Keys contributed by a mandatory field are its fixed name. -/
theorem key_of_const_field (name : String) (x : RVal) :
    ∀ kv, (some (name, x) : Option (String × RVal)) = some kv → kv.1 = name := by
  intro kv h
  cases h
  rfl

/-- The keys kept by a `filterMap id` over per-position-named options form a
sublist of the name list. -/
theorem keys_filterMap_sublist :
    ∀ {opts : List (Option (String × RVal))} {names : List String},
      List.Forall₂ (fun o n => ∀ kv, o = some kv → kv.1 = n) opts names →
      List.Sublist ((opts.filterMap id).map Prod.fst) names := by
  intro opts names hf
  induction hf with
  | nil => simp
  | @cons o n opts' names' hrel _ ih =>
    cases ho : o with
    | none => simpa [ho] using ih.cons n
    | some kv =>
      have hk := hrel kv ho
      simpa [ho, hk] using ih.cons₂ n

/-- A snapshot's `to_redis_dict` never writes the same field twice. -/
theorem to_redis_dict_keys_nodup (s : AnalyticsSnapshot) :
    ((AnalyticsSnapshot.to_redis_dict s).map Prod.fst).Nodup := by
  have hsub : List.Sublist ((AnalyticsSnapshot.to_redis_dict s).map Prod.fst)
      ["symbol", "pair_symbol", "timestamp", "last_price",
       "price_change_pct", "vwap", "spread", "hedge_ratio", "z_score",
       "correlation", "adf_statistic", "adf_pvalue", "is_stationary",
       "data_freshness_ms", "validity_status", "tick_count"] := by
    unfold AnalyticsSnapshot.to_redis_dict
    refine keys_filterMap_sublist ?_
    refine .cons (key_of_const_field _ _) ?_
    refine .cons (key_of_map_field _ _ _) ?_
    refine .cons (key_of_const_field _ _) ?_
    refine .cons (key_of_const_field _ _) ?_
    refine .cons (key_of_map_field _ _ _) ?_
    refine .cons (key_of_map_field _ _ _) ?_
    refine .cons (key_of_map_field _ _ _) ?_
    refine .cons (key_of_map_field _ _ _) ?_
    refine .cons (key_of_map_field _ _ _) ?_
    refine .cons (key_of_map_field _ _ _) ?_
    refine .cons (key_of_map_field _ _ _) ?_
    refine .cons (key_of_map_field _ _ _) ?_
    refine .cons (key_of_map_field _ _ _) ?_
    refine .cons (key_of_const_field _ _) ?_
    refine .cons (key_of_const_field _ _) ?_
    exact .cons (key_of_const_field _ _) .nil
  exact hsub.nodup (by decide)

/-- C7 as stated is false: publishing uses a plain `HSET`, which merges into
the stored hash without deleting.  After publishing a snapshot with populated
ADF fields and then one with null ADF fields for the same key, the stored hash
still contains `adf_statistic`, although the latest snapshot omits it. -/
theorem C7_counterexample :
    adfSnap2.adf_statistic = none ∧
    (staleHash.lookup "adf_statistic").isSome = true :=
  ⟨rfl, by decide⟩

/-- C7 amended: the stored hash after a publication contains every non-null
field of the published snapshot with its new value, and for every other field
falls back to whatever was stored before (fields omitted from the snapshot are
NOT removed). -/
theorem C7_amended_hash_merge (stored : RDict) (s : AnalyticsSnapshot) (k : String) :
    (publish_analytics stored s).lookup k =
      ((AnalyticsSnapshot.to_redis_dict s).lookup k).or (stored.lookup k) :=
  lookup_hash_set _ stored k (to_redis_dict_keys_nodup s)

/-- Membership in an insertion step. -/
theorem mem_insertSorted {a x : ℕ} :
    ∀ {l : List ℕ}, a ∈ insertSorted x l ↔ a = x ∨ a ∈ l := by
  intro l
  induction l with
  | nil => simp [insertSorted]
  | cons y ys ih =>
    simp only [insertSorted]
    split_ifs
    · simp [or_comm, or_assoc, or_left_comm]
    · simp only [List.mem_cons, ih]
      tauto

/-- Sorting the bucket keys does not change membership. -/
theorem mem_sortKeys {a : ℕ} {l : List ℕ} : a ∈ sortKeys l ↔ a ∈ l := by
  unfold sortKeys
  induction l with
  | nil => simp
  | cons y ys ih => simp [List.foldr_cons, mem_insertSorted, ih]

/-- C4 as stated is false: within a bucket, ties on equal timestamps are NOT
resolved by smaller `trade_id` — the query orders by `time` only.  With two
ticks at the same timestamp, physically ordered trade_id 2 (price 10) before
trade_id 1 (price 20), the computed `open` is 10, the price of the
larger-trade_id tick, not 20. -/
theorem C4_counterexample :
    (compute_ohlc_from_ticks 60 "BTCUSDT" 0 100 500 c4Rows).map
        (fun b => (b.time, b.open_, b.close, b.trade_count)) = [(0, 10, 10, 2)] ∧
    (c4Rows.filter (fun r => r.trade_id == 1)).map TickRow.price = [20] ∧
    (10 : ℚ) ≠ 20 := by
  refine ⟨by decide, by decide, by decide⟩

/-- C4 amended: every bar returned by `compute_ohlc_from_ticks` aggregates a
nonempty bucket group; `open` is the price of a tick whose timestamp is
minimal in the bucket and `close` of one whose timestamp is maximal (WHICH of
the equal-timestamp ticks supplies them is unspecified — the query has no
`trade_id` tie-break); `high`/`low` are the max/min price, `volume` the sum of
quantities, and `trade_count` the number of ticks in the bucket. -/
theorem C4_amended (interval : ℕ) (symbol : String) (t0 t1 lim : ℕ)
    (rows : List TickRow) (bar : Bar)
    (hbar : bar ∈ compute_ohlc_from_ticks interval symbol t0 t1 lim rows) :
    ohlcGroup interval symbol t0 t1 rows bar.time ≠ [] ∧
    (∃ r ∈ ohlcGroup interval symbol t0 t1 rows bar.time,
        bar.open_ = r.price ∧
        ∀ r2 ∈ ohlcGroup interval symbol t0 t1 rows bar.time, r.time ≤ r2.time) ∧
    (∃ r ∈ ohlcGroup interval symbol t0 t1 rows bar.time,
        bar.close = r.price ∧
        ∀ r2 ∈ ohlcGroup interval symbol t0 t1 rows bar.time, r2.time ≤ r.time) ∧
    (∃ r ∈ ohlcGroup interval symbol t0 t1 rows bar.time, bar.high = r.price) ∧
    (∀ r ∈ ohlcGroup interval symbol t0 t1 rows bar.time, r.price ≤ bar.high) ∧
    (∃ r ∈ ohlcGroup interval symbol t0 t1 rows bar.time, bar.low = r.price) ∧
    (∀ r ∈ ohlcGroup interval symbol t0 t1 rows bar.time, bar.low ≤ r.price) ∧
    bar.volume =
      ((ohlcGroup interval symbol t0 t1 rows bar.time).map TickRow.qty).sum ∧
    bar.trade_count = (ohlcGroup interval symbol t0 t1 rows bar.time).length := by
  simp only [compute_ohlc_from_ticks, List.mem_map] at hbar
  obtain ⟨t, ht, rfl⟩ := hbar
  dsimp only
  have htmem : t ∈ ((ohlcSelection symbol t0 t1 rows).map
      (fun r => timeBucket interval r.time)).dedup :=
    mem_sortKeys.mp (List.mem_of_mem_take ht)
  rw [List.mem_dedup, List.mem_map] at htmem
  obtain ⟨r0, hr0sel, hr0b⟩ := htmem
  have hr0 : r0 ∈ ohlcGroup interval symbol t0 t1 rows t := by
    unfold ohlcGroup
    exact List.mem_filter.mpr ⟨hr0sel, by simp [hr0b]⟩
  have hne : ohlcGroup interval symbol t0 t1 rows t ≠ [] := by
    intro h0
    rw [h0] at hr0
    exact List.not_mem_nil r0 hr0
  have hmapne : (ohlcGroup interval symbol t0 t1 rows t).map TickRow.price ≠ [] := by
    simpa using hne
  refine ⟨hne, ?_, ?_, ?_, ?_, ?_, ?_, rfl, rfl⟩
  · cases harg : (ohlcGroup interval symbol t0 t1 rows t).argmin TickRow.time with
    | none => exact absurd (List.argmin_eq_none.mp harg) hne
    | some m =>
      refine ⟨m, List.argmin_mem (Option.mem_def.mpr harg), rfl, ?_⟩
      intro r2 hr2
      exact List.le_of_mem_argmin hr2 (Option.mem_def.mpr harg)
  · cases harg : (ohlcGroup interval symbol t0 t1 rows t).argmax TickRow.time with
    | none => exact absurd (List.argmax_eq_none.mp harg) hne
    | some m =>
      refine ⟨m, List.argmax_mem (Option.mem_def.mpr harg), rfl, ?_⟩
      intro r2 hr2
      exact List.le_of_mem_argmax hr2 (Option.mem_def.mpr harg)
  · cases hmax : ((ohlcGroup interval symbol t0 t1 rows t).map TickRow.price).maximum with
    | bot => exact absurd (List.maximum_eq_bot.mp hmax) hmapne
    | coe M =>
      obtain ⟨r, hr, hrM⟩ := List.mem_map.mp (List.maximum_mem hmax)
      refine ⟨r, hr, ?_⟩
      rw [WithBot.unbot'_coe, hrM]
  · intro r hr
    cases hmax : ((ohlcGroup interval symbol t0 t1 rows t).map TickRow.price).maximum with
    | bot => exact absurd (List.maximum_eq_bot.mp hmax) hmapne
    | coe M =>
      rw [WithBot.unbot'_coe]
      exact List.le_maximum_of_mem (List.mem_map_of_mem TickRow.price hr) hmax
  · cases hmin : ((ohlcGroup interval symbol t0 t1 rows t).map TickRow.price).minimum with
    | top => exact absurd (List.minimum_eq_top.mp hmin) hmapne
    | coe M =>
      obtain ⟨r, hr, hrM⟩ := List.mem_map.mp (List.minimum_mem hmin)
      refine ⟨r, hr, ?_⟩
      rw [WithTop.untop'_coe, hrM]
  · intro r hr
    cases hmin : ((ohlcGroup interval symbol t0 t1 rows t).map TickRow.price).minimum with
    | top => exact absurd (List.minimum_eq_top.mp hmin) hmapne
    | coe M =>
      rw [WithTop.untop'_coe]
      exact List.minimum_le_of_mem (List.mem_map_of_mem TickRow.price hr) hmin

/-- Closed witness for `C4_amended` at the concrete input `c4Rows`. -/
theorem C4_witness :
    ohlcGroup 60 "BTCUSDT" 0 100 c4Rows c4Bar.time ≠ [] ∧
    (∃ r ∈ ohlcGroup 60 "BTCUSDT" 0 100 c4Rows c4Bar.time,
        c4Bar.open_ = r.price ∧
        ∀ r2 ∈ ohlcGroup 60 "BTCUSDT" 0 100 c4Rows c4Bar.time, r.time ≤ r2.time) ∧
    (∃ r ∈ ohlcGroup 60 "BTCUSDT" 0 100 c4Rows c4Bar.time,
        c4Bar.close = r.price ∧
        ∀ r2 ∈ ohlcGroup 60 "BTCUSDT" 0 100 c4Rows c4Bar.time, r2.time ≤ r.time) ∧
    (∃ r ∈ ohlcGroup 60 "BTCUSDT" 0 100 c4Rows c4Bar.time, c4Bar.high = r.price) ∧
    (∀ r ∈ ohlcGroup 60 "BTCUSDT" 0 100 c4Rows c4Bar.time, r.price ≤ c4Bar.high) ∧
    (∃ r ∈ ohlcGroup 60 "BTCUSDT" 0 100 c4Rows c4Bar.time, c4Bar.low = r.price) ∧
    (∀ r ∈ ohlcGroup 60 "BTCUSDT" 0 100 c4Rows c4Bar.time, c4Bar.low ≤ r.price) ∧
    c4Bar.volume =
      ((ohlcGroup 60 "BTCUSDT" 0 100 c4Rows c4Bar.time).map TickRow.qty).sum ∧
    c4Bar.trade_count = (ohlcGroup 60 "BTCUSDT" 0 100 c4Rows c4Bar.time).length :=
  C4_amended 60 "BTCUSDT" 0 100 500 c4Rows c4Bar (by with_unfolding_all decide)

/-- In an id-sorted list, every element's id is bounded by the last one's. -/
theorem sorted_le_getLast (l : List StreamEntry) (m : StreamEntry)
    (hs : l.Pairwise (fun a b => a.id < b.id)) (hlast : l.getLast? = some m) :
    ∀ e ∈ l, e.id ≤ m.id := by
  obtain ⟨ys, rfl⟩ := List.getLast?_eq_some_iff.mp hlast
  intro e he
  rcases List.mem_append.mp he with h | h
  · exact le_of_lt ((List.pairwise_append.mp hs).2.2 e h m (List.mem_singleton.mpr rfl))
  · rw [List.mem_singleton.mp h]

/-- In an id-sorted list, anything with id at most that of a member of the
`take`-prefix is itself in the prefix. -/
theorem mem_take_of_le_sorted {l : List StreamEntry} {n : ℕ}
    (hs : l.Pairwise (fun a b => a.id < b.id)) {a b : StreamEntry}
    (ha : a ∈ l.take n) (hb : b ∈ l) (hle : b.id ≤ a.id) : b ∈ l.take n := by
  have hsplit := List.take_append_drop n l
  rw [← hsplit] at hb hs
  rcases List.mem_append.mp hb with h | h
  · exact h
  · have := (List.pairwise_append.mp hs).2.2 a ha b h
    omega

/-- One archive cycle preserves the archivist invariant. -/
theorem archStep_preserves (es : List StreamEntry) (batch : ℕ)
    (hsort : es.Pairwise (fun a b => a.id < b.id))
    (c0 : ℕ) (st : ArchState) (hinv : ArchInv es c0 st) (cyc : ℕ × Bool) :
    ArchInv es c0 (archStep es batch st cyc) := by
  obtain ⟨k, ok⟩ := cyc
  unfold archStep
  dsimp only
  cases ok with
  | false =>
    rw [if_pos rfl]
    exact hinv
  | true =>
    rw [if_neg (by simp)]
    cases hlast : ((((es.take k).filter
        (fun e => decide (st.cursor < e.id))).take batch).filter
          (fun e => e.parses)).getLast? with
    | none => exact hinv
    | some last =>
      obtain ⟨hpw, hmem, hc0, hcov⟩ := hinv
      have hreadsub : List.Sublist
          (((es.take k).filter (fun e => decide (st.cursor < e.id))).take batch) es :=
        (List.take_sublist _ _).trans
          ((List.filter_sublist _).trans (List.take_sublist _ _))
      have hparsedsub : List.Sublist
          ((((es.take k).filter (fun e => decide (st.cursor < e.id))).take batch).filter
            (fun e => e.parses))
          (((es.take k).filter (fun e => decide (st.cursor < e.id))).take batch) :=
        List.filter_sublist _
      have hreadgt :
          ∀ e ∈ ((es.take k).filter (fun e => decide (st.cursor < e.id))).take batch,
            st.cursor < e.id := by
        intro e he
        exact of_decide_eq_true (List.mem_filter.mp (List.mem_of_mem_take he)).2
      have hparsedpw :
          ((((es.take k).filter (fun e => decide (st.cursor < e.id))).take batch).filter
            (fun e => e.parses)).Pairwise (fun a b => a.id < b.id) :=
        List.Pairwise.sublist (hparsedsub.trans hreadsub) hsort
      have hlastmem := List.mem_of_getLast?_eq_some hlast
      have hlastmax := sorted_le_getLast _ _ hparsedpw hlast
      have hcurlt : st.cursor < last.id := hreadgt last (hparsedsub.subset hlastmem)
      refine ⟨?_, ?_, ?_, ?_⟩
      · rw [List.pairwise_append]
        refine ⟨hpw, hparsedpw, ?_⟩
        intro a ha b hb
        have h1 : a.id ≤ st.cursor := (hmem a ha).2.2.2
        have h2 : st.cursor < b.id := hreadgt b (hparsedsub.subset hb)
        omega
      · intro e he
        rcases List.mem_append.mp he with h | h
        · obtain ⟨he1, he2, he3, he4⟩ := hmem e h
          exact ⟨he1, he2, he3, le_trans he4 (le_of_lt hcurlt)⟩
        · refine ⟨hreadsub.subset (hparsedsub.subset h),
            (List.mem_filter.mp h).2, ?_, hlastmax e h⟩
          have := hreadgt e (hparsedsub.subset h)
          omega
      · dsimp only
        omega
      · intro e hees hep hc0e hele
        by_cases hcur : e.id ≤ st.cursor
        · exact List.mem_append_left _ (hcov e hees hep hc0e hcur)
        · push_neg at hcur
          refine List.mem_append_right _ ?_
          have hlast_take : last ∈ es.take k :=
            (List.filter_sublist _).subset
              (List.mem_of_mem_take (hparsedsub.subset hlastmem))
          have hetake : e ∈ es.take k :=
            mem_take_of_le_sorted hsort hlast_take hees hele
          have hef : e ∈ (es.take k).filter (fun x => decide (st.cursor < x.id)) :=
            List.mem_filter.mpr ⟨hetake, decide_eq_true hcur⟩
          have hfsort :
              ((es.take k).filter (fun x => decide (st.cursor < x.id))).Pairwise
                (fun a b => a.id < b.id) :=
            List.Pairwise.sublist
              ((List.filter_sublist _).trans (List.take_sublist _ _)) hsort
          have heread :
              e ∈ ((es.take k).filter (fun x => decide (st.cursor < x.id))).take batch :=
            mem_take_of_le_sorted hfsort (hparsedsub.subset hlastmem) hef hele
          exact List.mem_filter.mpr ⟨heread, hep⟩

/-- C5: within one uninterrupted run of the archivist over one symbol's
stream (entry ids strictly increasing, each entry carrying a distinct
`(symbol, trade_id)`), the rows inserted into the cold `ticks` table carry
pairwise distinct `(symbol, trade_id)` — no tick is archived twice; every
parseable entry committed after the bootstrap cursor and at or before the
final cursor has been archived (at-least-once up to the acknowledged
position); and a failed cycle leaves cursor and table untouched. -/
theorem C5_archivist_exactly_once (es : List StreamEntry) (batch c0 : ℕ)
    (cycles : List (ℕ × Bool))
    (hsort : es.Pairwise (fun a b => a.id < b.id))
    (hkeys : es.Pairwise (fun a b =>
      (a.row.symbol, a.row.trade_id) ≠ (b.row.symbol, b.row.trade_id))) :
    ((archRun es batch c0 cycles).archived.Pairwise (fun a b =>
        (a.row.symbol, a.row.trade_id) ≠ (b.row.symbol, b.row.trade_id))) ∧
    (∀ e ∈ es, e.parses = true → c0 < e.id →
        e.id ≤ (archRun es batch c0 cycles).cursor →
        e ∈ (archRun es batch c0 cycles).archived) ∧
    (∀ st : ArchState, ∀ k : ℕ, archStep es batch st (k, false) = st) := by
  have hinv : ArchInv es c0 (archRun es batch c0 cycles) := by
    unfold archRun
    have hstep : ∀ (st : ArchState), ArchInv es c0 st →
        ArchInv es c0 (cycles.foldl (archStep es batch) st) := by
      induction cycles with
      | nil => exact fun st h => h
      | cons c cs ih =>
        intro st h
        exact ih _ (archStep_preserves es batch hsort c0 st h c)
    refine hstep _ ⟨by simp, by simp, le_refl _, ?_⟩
    intro e _ _ h1 h2
    dsimp only at h2
    omega
  obtain ⟨hpw, hmem, _, hcov⟩ := hinv
  refine ⟨?_, hcov, ?_⟩
  · refine List.Pairwise.imp_of_mem ?_ hpw
    intro a b ha hb hid
    have hne : a ≠ b := fun e => by
      rw [e] at hid
      exact lt_irrefl _ hid
    exact List.Pairwise.forall (fun _ _ h => Ne.symm h) hkeys
      (hmem a ha).1 (hmem b hb).1 hne
  · intro st k
    unfold archStep
    simp

/-- Closed witness for `C5_archivist_exactly_once` on a concrete two-entry
stream and a single successful cycle. -/
theorem C5_witness :
    ((archRun archStreamEx 10 0 [(2, true)]).archived.Pairwise (fun a b =>
        (a.row.symbol, a.row.trade_id) ≠ (b.row.symbol, b.row.trade_id))) ∧
    (∀ e ∈ archStreamEx, e.parses = true → 0 < e.id →
        e.id ≤ (archRun archStreamEx 10 0 [(2, true)]).cursor →
        e ∈ (archRun archStreamEx 10 0 [(2, true)]).archived) ∧
    (∀ st : ArchState, ∀ k : ℕ, archStep archStreamEx 10 st (k, false) = st) :=
  C5_archivist_exactly_once archStreamEx 10 0 [(2, true)] (by decide) (by decide)

end GC
